import Mathlib

set_option autoImplicit false

/-!
Verification development for the SmartCache repository
(`src/SmartCacheing/core/core.py`).

The embedding is shallow: each Python class becomes a Lean structure and
each method a pure function.  Mutation is modelled by explicit state
passing (a method on `Cache` consumes a storage map and returns the
storage it leaves behind).  The wall clock (`DateUtil.now()`) becomes an
explicit `now : Int` parameter; `DateUtil.increment(amount, obj, "seconds")`
becomes integer addition.  Logging calls are observability only and are
dropped, except where the source would crash while trying to log (see
`CacheItem.expires_at_set`).  Python exceptions are modelled with `Except`.
-/

/-- Universe of Python values a caller can store in the cache.  The source
types the stored value as `Any`, so the model must cover values that do
support key-based membership (`dict`, `list`, `str`), values that do not
(`int` has no `__contains__`), and arbitrary caller objects whose
`__contains__` raises — the `try/except` in `CacheItem.__contains__`
exists precisely for those, represented here by `badContainer`. -/
inductive PyValue where
  | pyInt : Int → PyValue
  | pyStr : String → PyValue
  | pyList : List PyValue → PyValue
  | pyDict : List (String × PyValue) → PyValue
  | badContainer : PyValue

/-- Python exceptions that the embedded code can raise. -/
inductive PyErr where
  | attributeError : PyErr
  | typeError : PyErr
deriving DecidableEq

/-- Keys as Python sees them at a dict-membership test: the storage dict is
keyed by `int` ids, but `CacheService.get_by_key` probes it with a `str`. -/
inductive PyKey where
  | intKey : Nat → PyKey
  | strKey : String → PyKey

/-- Decides whether the list `needle` occurs at the head of `hay`. -/
def charsPrefix : List Char → List Char → Bool
  | [], _ => true
  | _ :: _, [] => false
  | a :: as, b :: bs => a == b && charsPrefix as bs

/-- Decides whether the list `needle` occurs contiguously anywhere in `hay`;
used to model Python's substring membership `key in some_string`. -/
def charsInfix (needle : List Char) : List Char → Bool
  | [] => charsPrefix needle []
  | b :: bs => charsPrefix needle (b :: bs) || charsInfix needle bs

/-- Python equality between the probe string `k` and a stored element, as
used by `key in some_list`: a `str` equals only an equal `str`; comparing a
`str` against any other value yields `False` without raising. -/
def PyValue.eqStr (k : String) : PyValue → Bool
  | .pyStr s => k == s
  | _ => false

/-- Models `hasattr(value, "__contains__")`: Python `int` has no
`__contains__`; `str`, `list`, `dict` and the arbitrary container objects
all do. -/
def PyValue.hasContains : PyValue → Bool
  | .pyInt _ => false
  | _ => true

/-- Models the raw Python expression `key in value` — the membership test
itself, which can raise: on an `int` it raises `TypeError` (argument not
iterable), and on a `badContainer` the object's own `__contains__` raises. -/
def PyValue.memberTest : PyValue → String → Except PyErr Bool
  | .pyInt _, _ => .error .typeError
  | .pyStr s, k => .ok (charsInfix k.toList s.toList)
  | .pyList xs, k => .ok (xs.any (PyValue.eqStr k))
  | .pyDict es, k => .ok (es.any (fun e => e.1 == k))
  | .badContainer, _ => .error .typeError

/-- A cache item (`CacheItem` in the source): id, creation time, expiration
time, time to live in seconds, and the stored value.  `__init__` sets
`created_at = now` and `expires_at = created_at + time_to_live` seconds. -/
structure CacheItem where
  id : Nat
  created_at : Int
  expires_at : Int
  time_to_live : Nat
  value : PyValue

/-- Constructor of `CacheItem` (`CacheItem.__init__`): stamps
`created_at := now` and `expires_at := now + time_to_live`. -/
def CacheItem.init (id : Nat) (ttl : Nat) (v : PyValue) (now : Int) : CacheItem :=
  { id := id, created_at := now, expires_at := now + (ttl : Int),
    time_to_live := ttl, value := v }

/-- Setter of the `expires_at` property.  The source guard is
`if self._expires_at < value: self._logger.warning(...); return`, i.e. it
fires when the candidate is strictly LATER than the current expiration
(although its warning text speaks of past times), and in that branch it
dereferences `self._logger` — an attribute `CacheItem.__init__` never
creates — so the branch raises `AttributeError` instead of logging.  In
every other case (candidate earlier than or equal to the current value)
the assignment commits. -/
def CacheItem.expires_at_set (it : CacheItem) (v : Int) : Except PyErr CacheItem :=
  if it.expires_at < v then
    Except.error PyErr.attributeError
  else
    Except.ok { it with expires_at := v }

/-- Method `CacheItem.__contains__`: returns `false` when the stored value
has no `__contains__` attribute, otherwise runs the membership test inside
`try/except`, turning any exception into `false`. -/
def CacheItem.containsMem (it : CacheItem) (key : String) : Bool :=
  if it.value.hasContains = false then
    false
  else
    match it.value.memberTest key with
    | .ok b => b
    | .error _ => false

/-- Method `CacheItem.contains_key`: delegates to `__contains__`. -/
def CacheItem.contains_key (it : CacheItem) (key : String) : Bool :=
  it.containsMem key

/-- Method `CacheItem.is_expired`: `DateUtil.now() > self._expires_at`. -/
def CacheItem.is_expired (now : Int) (it : CacheItem) : Bool :=
  decide (it.expires_at < now)

/-- Fixed base of the process-wide id counter (`CacheItemFactory.BASE_ID`). -/
def CacheItemFactory.BASE_ID : Nat := 10000

/-- Method `CacheItemFactory.create`: hands out the current counter value as
the id, builds the item with `created_at = now`, and increments the
counter.  The mutable class attribute `BASE_ID` is threaded explicitly as
`counter`. -/
def CacheItemFactory.create (counter : Nat) (now : Int) (v : PyValue) (ttl : Nat) :
    CacheItem × Nat :=
  (CacheItem.init counter ttl v now, counter + 1)

/-- Builder configuration (`CacheItemBuilder._configuration`): the two keys
the builder can hold, each absent until its `with_` method runs. -/
structure CacheItemBuilder where
  value : Option PyValue
  time_to_live : Option Nat

/-- A fresh builder with an empty configuration dict. -/
def CacheItemBuilder.empty : CacheItemBuilder :=
  { value := none, time_to_live := none }

/-- Method `CacheItemBuilder.with_value`. -/
def CacheItemBuilder.with_value (b : CacheItemBuilder) (v : PyValue) : CacheItemBuilder :=
  { b with value := some v }

/-- Method `CacheItemBuilder.with_time_to_live`. -/
def CacheItemBuilder.with_time_to_live (b : CacheItemBuilder) (t : Nat) : CacheItemBuilder :=
  { b with time_to_live := some t }

/-- Method `CacheItemBuilder.build`: reads both configuration keys and calls
the factory; a missing key would raise `KeyError` in the source, modelled
as `none`. -/
def CacheItemBuilder.build (b : CacheItemBuilder) (counter : Nat) (now : Int) :
    Option (CacheItem × Nat) :=
  match b.value, b.time_to_live with
  | some v, some t => some (CacheItemFactory.create counter now v t)
  | _, _ => none

/-- The storage map of a `Cache` (`Dict[int, CacheItem]`), modelled as an
insertion-ordered association list, matching Python dict semantics: a
lookup finds the entry by key, an update replaces the value in place, a
fresh insertion appends at the end. -/
abbrev Storage := List (Nat × CacheItem)

/-- Python `dict.get(key, None)`. -/
def dictGet (st : Storage) (k : Nat) : Option CacheItem :=
  (st.find? (fun p => p.1 == k)).map (fun p => p.2)

/-- Python `dict[key] = item`: replaces in place when the key is present,
otherwise appends at the end (insertion order preserved). -/
def dictSet (st : Storage) (k : Nat) (it : CacheItem) : Storage :=
  if st.any (fun p => p.1 == k) then
    st.map (fun p => if p.1 == k then (k, it) else p)
  else
    st ++ [(k, it)]

/-- The storage left behind by Python `dict.pop(key, None)`. -/
def dictRemove (st : Storage) (k : Nat) : Storage :=
  st.filter (fun p => p.1 != k)

/-- Python `dict.pop(key, None)`: the popped value (if any) and the
remaining storage. -/
def dictPop (st : Storage) (k : Nat) : Option CacheItem × Storage :=
  (dictGet st k, dictRemove st k)

/-- Method `Cache.__contains__` (`containsId` in the spec):
`key in self._storage and not self._storage[key].is_expired()`.  The
storage dict is keyed by the integer ids, and Python dict membership
compares keys by equality, so a `str` probe (as sent by
`CacheService.get_by_key`) is never a member — the conjunction
short-circuits to `False` before the indexing.  Returns the result paired
with the storage the method leaves behind. -/
def Cache.containsId (now : Int) (st : Storage) (k : PyKey) : Bool × Storage :=
  match k with
  | .intKey n =>
    match dictGet st n with
    | some it => (!(it.is_expired now), st)
    | none => (false, st)
  | .strKey _ => (false, st)

/-- Method `Cache.add`: builds an item through the builder and the factory,
stores it under its id, and returns the id.  Result: the returned id, the
storage after the insertion, and the advanced factory counter. -/
def Cache.add (now : Int) (counter : Nat) (v : PyValue) (ttl : Nat) (st : Storage) :
    Nat × Storage × Nat :=
  match ((CacheItemBuilder.empty.with_value v).with_time_to_live ttl).build counter now with
  | some (item, counter2) => (item.id, dictSet st item.id item, counter2)
  | none => (0, st, counter)

/-- Method `Cache.clear`. -/
def Cache.clear (_st : Storage) : Storage :=
  []

/-- Method `Cache.get`: `self._storage.get(key, None)`; returns the entry
regardless of expiration, paired with the storage the method leaves
behind. -/
def Cache.get (st : Storage) (k : Nat) : Option CacheItem × Storage :=
  (dictGet st k, st)

/-- Method `Cache.get_by_key`: first entry (in storage iteration order)
that is not expired and whose value contains `key`; paired with the
storage the method leaves behind. -/
def Cache.get_by_key (now : Int) (st : Storage) (key : String) :
    Option CacheItem × Storage :=
  ((st.find? (fun p => !(p.2.is_expired now) && p.2.containsMem key)).map (fun p => p.2), st)

/-- Method `Cache.invalidate`: pops the entry; both the absent branch (a
logged warning) and the present branch (a logged info) leave exactly the
popped storage behind. -/
def Cache.invalidate (k : Nat) (st : Storage) : Storage :=
  let popres := dictPop st k
  match popres.1 with
  | none => popres.2
  | some _ => popres.2

/-- Snapshot scan of `Cache.invalidate_expired`: the ids of the currently
expired items, `[item.id for item in storage.values() if item.is_expired()]`
in the source. -/
def Cache.expiredIdsSnapshot (now : Int) (st : Storage) : List Nat :=
  ((st.map Prod.snd).filter (fun it => it.is_expired now)).map (fun it => it.id)

/-- Method `Cache.invalidate_expired`: takes the snapshot above; an empty
snapshot logs a warning and leaves the storage as is; otherwise each
snapshotted id is invalidated in turn. -/
def Cache.invalidate_expired (now : Int) (st : Storage) : Storage :=
  let expired_ids := Cache.expiredIdsSnapshot now st
  if expired_ids.length = 0 then
    st
  else
    expired_ids.foldl (fun acc i => Cache.invalidate i acc) st

/-- Method `Cache.remove`: same removal mechanics as `invalidate`, distinct
log wording. -/
def Cache.remove (k : Nat) (st : Storage) : Storage :=
  let popres := dictPop st k
  match popres.1 with
  | none => popres.2
  | some _ => popres.2

/-- Method `Cache.set`: upsert keyed by the item's own id. -/
def Cache.set (it : CacheItem) (st : Storage) : Storage :=
  dictSet st it.id it

/-- Method `Cache.size`: `len(self._storage)`, paired with the storage the
method leaves behind. -/
def Cache.size (st : Storage) : Nat × Storage :=
  (st.length, st)

/-- Method `CacheService.add`: delegates to `Cache.add`. -/
def CacheService.add (now : Int) (counter : Nat) (v : PyValue) (ttl : Nat) (st : Storage) :
    Nat × Storage × Nat :=
  Cache.add now counter v ttl st

/-- Method `CacheService.get`: delegates to `Cache.get`; on a missing entry
logs a warning and returns `None`, otherwise unwraps the stored value.
(A `CacheItem` instance is always truthy, so `if not cacheitem` is exactly
the `None` check.) -/
def CacheService.get (st : Storage) (k : Nat) : Option PyValue :=
  match (Cache.get st k).1 with
  | none => none
  | some it => some it.value

/-- Method `CacheService.get_by_key`: guard `if key not in self._storage`
runs `Cache.__contains__` with the STRING key against the int-keyed
storage; when the guard fails it logs a warning and returns `None`,
otherwise it delegates to `Cache.get_by_key`. -/
def CacheService.get_by_key (now : Int) (st : Storage) (key : String) : Option CacheItem :=
  if (Cache.containsId now st (.strKey key)).1 = false then
    none
  else
    (Cache.get_by_key now st key).1

/-- Method `CacheService.remove`: delegates to `Cache.remove`. -/
def CacheService.remove (k : Nat) (st : Storage) : Storage :=
  Cache.remove k st

/-- Method `CacheService.size`: delegates to `Cache.size`. -/
def CacheService.size (st : Storage) : Nat :=
  (Cache.size st).1

/-- Program points of the body of `CacheService._periodic_cleanup`, one per
statement the loop executes: the `while not self._stop_event.is_set()`
check, the `time.sleep(...)` call, the `invalidate_expired()` call, and
the `self._last_operation_at = DateUtil.now()` assignment. -/
inductive CleanupPC where
  | check : CleanupPC
  | sleepCall : CleanupPC
  | sweep : CleanupPC
  | updateLast : CleanupPC
deriving DecidableEq

/-- State of a `CacheService` together with the position of its background
cleanup thread.  `stopEvent` is the `threading.Event`; `exited` records
that the loop has fallen out of the `while`. -/
structure ServiceState where
  pc : CleanupPC
  stopEvent : Bool
  storage : Storage
  lastOperationAt : Int
  exited : Bool

/-- One small step of the cleanup thread of `CacheService._periodic_cleanup`:
the loop head checks the stop event FIRST and only then sleeps; after the
sleep completes, the sweep and the `last_operation_at` update run
unconditionally before control returns to the loop head. -/
def cleanupStep (now : Int) (s : ServiceState) : ServiceState :=
  if s.exited then s
  else
    match s.pc with
    | .check =>
      if s.stopEvent then { s with exited := true }
      else { s with pc := .sleepCall }
    | .sleepCall => { s with pc := .sweep }
    | .sweep => { s with storage := Cache.invalidate_expired now s.storage, pc := .updateLast }
    | .updateLast => { s with lastOperationAt := now, pc := .check }

/-- `CacheService.shutdown` setting the stop event from another thread; it
can interleave at any program point, in particular while the cleanup
thread is inside `time.sleep`. -/
def setStopEvent (s : ServiceState) : ServiceState :=
  { s with stopEvent := true }

/-- Conditionally inject a concurrent `shutdown` signal. -/
def injectStop (b : Bool) (s : ServiceState) : ServiceState :=
  if b then setStopEvent s else s

/-- Sequential driver used for the id-sequence property: perform one
`Cache.add` per value in `vs`, threading storage and factory counter,
and collect the returned ids in order. -/
def Cache.addMany (now : Int) (ttl : Nat) (vs : List PyValue) (counter : Nat) (st : Storage) :
    List Nat × Storage × Nat :=
  match vs with
  | [] => ([], st, counter)
  | v :: rest =>
    let r1 := Cache.add now counter v ttl st
    let r2 := Cache.addMany now ttl rest r1.2.2 r1.2.1
    (r1.1 :: r2.1, r2.2.1, r2.2.2)

/-- Concrete fixture: the spec scenario entry `add({"a":1}, ttl=300s)`,
created at time 0 with the first factory id. -/
def itemDictA : CacheItem :=
  CacheItem.init 10000 300 (PyValue.pyDict [("a", PyValue.pyInt 1)]) 0

/-- Concrete fixture: the storage holding exactly the `{"a":1}` entry. -/
def stA : Storage := [(10000, itemDictA)]

/-- Concrete fixture: an item created at time 40 with a 60-second life, so
its expiration time is 100. -/
def itemBase : CacheItem := CacheItem.init 10000 60 (PyValue.pyInt 0) 40

/-- Concrete fixture: an item created at time 0 with a 100-second life. -/
def expiredItem : CacheItem := CacheItem.init 10000 100 (PyValue.pyStr "x") 0

/-- Concrete fixture: a fresh service state at the loop head with one stored
item and the stop event clear. -/
def s0 : ServiceState :=
  { pc := CleanupPC.check, stopEvent := false, storage := [(10000, expiredItem)],
    lastOperationAt := 0, exited := false }

/-- Concrete fixture: an item whose stored value is a plain `int` (no
`__contains__` attribute). -/
def itemIntV : CacheItem := CacheItem.init 11000 300 (PyValue.pyInt 5) 0

/-- Concrete fixture: an item whose stored value raises from its
membership test. -/
def itemBadV : CacheItem := CacheItem.init 11001 300 PyValue.badContainer 0

theorem dictGet_cons (p : Nat × CacheItem) (st : Storage) (k : Nat) :
    dictGet (p :: st) k = if p.1 = k then some p.2 else dictGet st k := by
  by_cases h : p.1 = k <;> simp [dictGet, List.find?_cons, h]

theorem dictGet_eq_none_iff (st : Storage) (k : Nat) :
    dictGet st k = none ↔ ∀ p ∈ st, p.1 ≠ k := by
  induction st with
  | nil => simp [dictGet]
  | cons p rest ih =>
    rw [dictGet_cons]
    by_cases h : p.1 = k <;> simp [h, ih]

theorem dictGet_mem {st : Storage} {k : Nat} {it : CacheItem}
    (h : dictGet st k = some it) : (k, it) ∈ st := by
  induction st with
  | nil => simp [dictGet] at h
  | cons p rest ih =>
    rw [dictGet_cons] at h
    by_cases hk : p.1 = k
    · simp only [hk, if_pos rfl] at h
      obtain ⟨a, b⟩ := p
      simp_all
    · simp only [if_neg hk] at h
      exact List.mem_cons_of_mem _ (ih h)

theorem dictGet_of_mem_nodup {st : Storage} (hnd : (st.map Prod.fst).Nodup)
    {k : Nat} {it : CacheItem} (h : (k, it) ∈ st) : dictGet st k = some it := by
  induction st with
  | nil => simp at h
  | cons p rest ih =>
    rw [dictGet_cons]
    rcases List.mem_cons.mp h with h1 | h1
    · subst h1; simp
    · have hk : p.1 ≠ k := by
        intro he
        have : k ∈ rest.map Prod.fst := List.mem_map.mpr ⟨(k, it), h1, rfl⟩
        rw [List.map_cons, List.nodup_cons] at hnd
        exact hnd.1 (he ▸ this)
      rw [if_neg hk]
      exact ih (by rw [List.map_cons, List.nodup_cons] at hnd; exact hnd.2) h1

theorem dictGet_dictSet_self (st : Storage) (k : Nat) (it : CacheItem) :
    dictGet (dictSet st k it) k = some it := by
  rw [dictSet]
  by_cases h : st.any (fun p => p.1 == k)
  · rw [if_pos h]
    induction st with
    | nil => simp at h
    | cons p rest ih =>
      rw [List.map_cons, dictGet_cons]
      by_cases hp : p.1 = k
      · simp [hp]
      · have hp' : (p.1 == k) = false := by simp [hp]
        simp only [hp', if_neg hp, ite_self]
        rw [if_neg]
        · exact ih (by simpa [List.any_cons, hp'] using h)
        · simpa using hp
  · rw [if_neg h]
    induction st with
    | nil => simp [dictGet]
    | cons p rest ih =>
      rw [List.cons_append, dictGet_cons]
      have hp : p.1 ≠ k := by
        intro he
        exact h (by simp [List.any_cons, he])
      rw [if_neg hp]
      exact ih (by intro hc; exact h (by simp [List.any_cons]; right; simpa using hc))

theorem dictGet_dictRemove (st : Storage) (k j : Nat) :
    dictGet (dictRemove st k) j = if j = k then none else dictGet st j := by
  induction st with
  | nil => simp [dictGet, dictRemove]
  | cons p rest ih =>
    rw [dictRemove, List.filter_cons]
    by_cases hp : p.1 = k
    · have : (p.1 != k) = false := by simp [hp]
      rw [this]
      simp only [Bool.false_eq_true, if_false]
      rw [dictRemove] at ih
      rw [ih, dictGet_cons]
      by_cases hj : j = k
      · simp [hj]
      · rw [if_neg hj, if_neg hj, if_neg (by omega : ¬ p.1 = j)]
    · have : (p.1 != k) = true := by simp [hp]
      rw [this]
      simp only [if_true]
      rw [dictGet_cons, dictGet_cons]
      rw [dictRemove] at ih
      by_cases hpj : p.1 = j
      · rw [if_pos hpj, if_pos hpj, if_neg (by omega : ¬ j = k)]
      · rw [if_neg hpj, if_neg hpj, ih]

theorem Cache.invalidate_eq (k : Nat) (st : Storage) :
    Cache.invalidate k st = dictRemove st k := by
  simp only [Cache.invalidate, dictPop]
  cases dictGet st k <;> rfl

theorem Cache.remove_eq (k : Nat) (st : Storage) :
    Cache.remove k st = dictRemove st k := by
  simp only [Cache.remove, dictPop]
  cases dictGet st k <;> rfl

theorem Cache.add_eq (now : Int) (counter : Nat) (v : PyValue) (ttl : Nat) (st : Storage) :
    Cache.add now counter v ttl st =
      (counter, dictSet st counter (CacheItem.init counter ttl v now), counter + 1) := rfl

theorem dictGet_foldl_invalidate (ids : List Nat) (st : Storage) (j : Nat) :
    dictGet (ids.foldl (fun acc i => Cache.invalidate i acc) st) j =
      if j ∈ ids then none else dictGet st j := by
  induction ids generalizing st with
  | nil => simp
  | cons i rest ih =>
    rw [List.foldl_cons, ih, Cache.invalidate_eq, dictGet_dictRemove]
    by_cases h1 : j ∈ rest
    · simp [h1]
    · by_cases h2 : j = i <;> simp [h1, h2]

theorem dictSet_fresh (st : Storage) (k : Nat) (it : CacheItem)
    (h : ∀ p ∈ st, p.1 ≠ k) : dictSet st k it = st ++ [(k, it)] := by
  rw [dictSet, if_neg]
  intro hc
  obtain ⟨p, hp, hbeq⟩ := List.any_eq_true.mp hc
  exact h p hp (by simpa using hbeq)

theorem mem_expiredIdsSnapshot_iff (now : Int) (st : Storage)
    (hids : ∀ p ∈ st, (p.2).id = p.1) (hnd : (st.map Prod.fst).Nodup) (j : Nat) :
    j ∈ Cache.expiredIdsSnapshot now st ↔
      ∃ it, dictGet st j = some it ∧ it.is_expired now = true := by
  constructor
  · intro h
    obtain ⟨it, hmem, hid⟩ := List.mem_map.mp h
    obtain ⟨hmem2, hexp⟩ := List.mem_filter.mp hmem
    obtain ⟨p, hp, hpsnd⟩ := List.mem_map.mp hmem2
    obtain ⟨a, b⟩ := p
    have hb : b = it := hpsnd
    subst hb
    have ha : a = j := by
      have := hids (a, b) hp
      simp only at this
      rw [← hid, this]
    subst ha
    exact ⟨b, dictGet_of_mem_nodup hnd hp, hexp⟩
  · rintro ⟨it, hget, hexp⟩
    have hmem := dictGet_mem hget
    refine List.mem_map.mpr ⟨it,
      List.mem_filter.mpr ⟨List.mem_map.mpr ⟨(j, it), hmem, rfl⟩, hexp⟩, ?_⟩
    simpa using hids (j, it) hmem

theorem expiredIdsSnapshot_eq_nil (now : Int) (st : Storage)
    (h : ∀ p ∈ st, p.2.is_expired now = false) :
    Cache.expiredIdsSnapshot now st = [] := by
  rw [Cache.expiredIdsSnapshot]
  have hf : (st.map Prod.snd).filter (fun it => it.is_expired now) = [] := by
    rw [List.filter_eq_nil_iff]
    intro it hit
    obtain ⟨p, hp, rfl⟩ := List.mem_map.mp hit
    simp [h p hp]
  rw [hf]
  rfl

/-- Concrete fixture: an entry expired at time 200 (life ended at 100),
stored beside the live `{"a":1}` entry. -/
def itemExpW : CacheItem := CacheItem.init 10001 100 (PyValue.pyStr "x") 0

/-- Concrete fixture: two-entry storage, one live and one expired at 200. -/
def stW : Storage := [(10000, itemDictA), (10001, itemExpW)]

/-- Claim C6: `invalidateExpired` removes exactly the entries expired at the
time of its snapshot scan — afterwards a lookup finds an entry iff it was
present and not expired, every non-expired entry surviving unchanged — and
when no entry is expired it returns (after a logged warning, without
error) with the storage unchanged.  The hypotheses are the invariants of a
Python dict populated by `Cache.add`/`Cache.set`: each entry is stored
under its own id, and dict keys are unique. -/
theorem c6_invalidate_expired_exact (now : Int) (st : Storage)
    (hids : ∀ p ∈ st, (p.2).id = p.1) (hnd : (st.map Prod.fst).Nodup) :
    (∀ j : Nat, dictGet (Cache.invalidate_expired now st) j =
      (dictGet st j).bind (fun it => if it.is_expired now then none else some it))
  ∧ ((∀ p ∈ st, p.2.is_expired now = false) → Cache.invalidate_expired now st = st) := by
  constructor
  · intro j
    rw [Cache.invalidate_expired]
    by_cases hlen : (Cache.expiredIdsSnapshot now st).length = 0
    · rw [if_pos hlen]
      rw [List.length_eq_zero] at hlen
      cases hget : dictGet st j with
      | none => rfl
      | some it =>
        have hexp : it.is_expired now = false := by
          by_contra hx
          have hx' : it.is_expired now = true := by
            cases hb : it.is_expired now
            · exact absurd hb hx
            · rfl
          have hj : j ∈ Cache.expiredIdsSnapshot now st :=
            (mem_expiredIdsSnapshot_iff now st hids hnd j).mpr ⟨it, hget, hx'⟩
          rw [hlen] at hj
          simp at hj
        simp [hexp]
    · rw [if_neg hlen, dictGet_foldl_invalidate]
      by_cases hj : j ∈ Cache.expiredIdsSnapshot now st
      · rw [if_pos hj]
        obtain ⟨it, hget, hexp⟩ := (mem_expiredIdsSnapshot_iff now st hids hnd j).mp hj
        rw [hget]
        simp [hexp]
      · rw [if_neg hj]
        cases hget : dictGet st j with
        | none => rfl
        | some it =>
          have hexp : it.is_expired now = false := by
            cases hb : it.is_expired now
            · rfl
            · exact absurd ((mem_expiredIdsSnapshot_iff now st hids hnd j).mpr
                ⟨it, hget, hb⟩) hj
          simp [hexp]
  · intro hall
    rw [Cache.invalidate_expired]
    rw [expiredIdsSnapshot_eq_nil now st hall]
    rfl

/-- Witness for C6 at a concrete two-entry storage at time 200: the expired
entry is gone, the live entry survives unchanged. -/
theorem c6_witness :
    dictGet (Cache.invalidate_expired 200 stW) 10001 = none
  ∧ dictGet (Cache.invalidate_expired 200 stW) 10000 = some itemDictA := by
  have h := c6_invalidate_expired_exact 200 stW (by decide) (by decide)
  constructor
  · rw [h.1 10001]; rfl
  · rw [h.1 10000]; rfl

/-- Claim C7: `remove(id)` and `invalidate(id)` on an id absent from the
storage produce no error (both are total functions of the embedding) and
leave the storage — hence `size()` — unchanged; repeating the call gives
the identical no-op. -/
theorem c7_remove_invalidate_absent_noop (st : Storage) (k : Nat)
    (h : dictGet st k = none) :
    Cache.remove k st = st
  ∧ Cache.invalidate k st = st
  ∧ (Cache.size (Cache.remove k st)).1 = (Cache.size st).1
  ∧ (Cache.size (Cache.invalidate k st)).1 = (Cache.size st).1
  ∧ Cache.remove k (Cache.remove k st) = Cache.remove k st
  ∧ Cache.invalidate k (Cache.invalidate k st) = Cache.invalidate k st := by
  have hrem : dictRemove st k = st := by
    rw [dictRemove, List.filter_eq_self]
    intro p hp
    simp [(dictGet_eq_none_iff st k).mp h p hp]
  have h1 : Cache.remove k st = st := by rw [Cache.remove_eq, hrem]
  have h2 : Cache.invalidate k st = st := by rw [Cache.invalidate_eq, hrem]
  exact ⟨h1, h2, by rw [h1], by rw [h2], by rw [h1, h1], by rw [h2, h2]⟩

/-- Witness for C7: id 1 is absent from the one-entry storage `stA`. -/
theorem c7_witness :
    Cache.remove 1 stA = stA
  ∧ Cache.invalidate 1 stA = stA
  ∧ (Cache.size (Cache.remove 1 stA)).1 = (Cache.size stA).1
  ∧ (Cache.size (Cache.invalidate 1 stA)).1 = (Cache.size stA).1
  ∧ Cache.remove 1 (Cache.remove 1 stA) = Cache.remove 1 stA
  ∧ Cache.invalidate 1 (Cache.invalidate 1 stA) = Cache.invalidate 1 stA :=
  c7_remove_invalidate_absent_noop stA 1 rfl

/-- Claim C5: immediately after `add(v, ttl)` with `ttl > 0`, reading the
returned id through `CacheService.get` yields `v`, and the stored entry is
not expired at any time `now2` that has not advanced past the entry's
expiration time `now + ttl`. -/
theorem c5_add_then_get_returns_value (now now2 : Int) (counter : Nat) (v : PyValue)
    (ttl : Nat) (st : Storage) (httl : 0 < ttl) (hnow : now2 ≤ now + (ttl : Int)) :
    CacheService.get (Cache.add now counter v ttl st).2.1
      (Cache.add now counter v ttl st).1 = some v
  ∧ (dictGet (Cache.add now counter v ttl st).2.1
      (Cache.add now counter v ttl st).1).map (CacheItem.is_expired now2) = some false := by
  rw [Cache.add_eq]
  simp only [CacheService.get, Cache.get]
  rw [dictGet_dictSet_self]
  constructor
  · rfl
  · have : CacheItem.is_expired now2 (CacheItem.init counter ttl v now) = false := by
      simp only [CacheItem.is_expired, CacheItem.init, decide_eq_false_iff_not, not_lt]
      exact hnow
    simp [this]

/-- Witness for C5: `add("hello", ttl=300)` into an empty cache at time 0,
read back at time 0. -/
theorem c5_witness :
    CacheService.get (Cache.add 0 10000 (PyValue.pyStr "hello") 300 []).2.1
      (Cache.add 0 10000 (PyValue.pyStr "hello") 300 []).1 = some (PyValue.pyStr "hello")
  ∧ (dictGet (Cache.add 0 10000 (PyValue.pyStr "hello") 300 []).2.1
      (Cache.add 0 10000 (PyValue.pyStr "hello") 300 []).1).map
        (CacheItem.is_expired 0) = some false :=
  c5_add_then_get_returns_value 0 0 10000 (PyValue.pyStr "hello") 300 []
    (by decide) (by decide)

theorem Cache.addMany_spec (now : Int) (ttl : Nat) (vs : List PyValue) :
    ∀ (counter : Nat) (st : Storage), (∀ p ∈ st, p.1 < counter) →
      (Cache.addMany now ttl vs counter st).1 = List.range' counter vs.length
    ∧ ((Cache.addMany now ttl vs counter st).2.1).length = st.length + vs.length
    ∧ (∀ p ∈ (Cache.addMany now ttl vs counter st).2.1, p.1 < counter + vs.length) := by
  induction vs with
  | nil =>
    intro c st h
    refine ⟨rfl, rfl, ?_⟩
    simpa using h
  | cons v rest ih =>
    intro c st h
    have hfresh : ∀ p ∈ st, p.1 ≠ c := fun p hp => Nat.ne_of_lt (h p hp)
    have hset : dictSet st c (CacheItem.init c ttl v now) =
        st ++ [(c, CacheItem.init c ttl v now)] := dictSet_fresh st c _ hfresh
    have hbound : ∀ p ∈ dictSet st c (CacheItem.init c ttl v now), p.1 < c + 1 := by
      rw [hset]
      intro p hp
      rcases List.mem_append.mp hp with h1 | h1
      · exact Nat.lt_succ_of_lt (h p h1)
      · have hpe : p = (c, CacheItem.init c ttl v now) := by simpa using h1
        rw [hpe]
        exact Nat.lt_succ_self c
    obtain ⟨ih1, ih2, ih3⟩ := ih (c + 1) (dictSet st c (CacheItem.init c ttl v now)) hbound
    have hunfold : Cache.addMany now ttl (v :: rest) c st =
        ((Cache.add now c v ttl st).1 ::
            (Cache.addMany now ttl rest (Cache.add now c v ttl st).2.2
              (Cache.add now c v ttl st).2.1).1,
          (Cache.addMany now ttl rest (Cache.add now c v ttl st).2.2
            (Cache.add now c v ttl st).2.1).2.1,
          (Cache.addMany now ttl rest (Cache.add now c v ttl st).2.2
            (Cache.add now c v ttl st).2.1).2.2) := rfl
    rw [hunfold, Cache.add_eq]
    refine ⟨?_, ?_, ?_⟩
    · simp only [ih1, List.length_cons]
      rw [List.range'_succ]
    · rw [ih2, hset]
      simp only [List.length_append, List.length_cons, List.length_nil]
      omega
    · intro p hp
      have h3 := ih3 p hp
      simp only [List.length_cons]
      omega

/-- Claim C9: starting from an empty cache and the factory's fresh counter,
N sequential `add` calls return the strictly increasing sequential ids
10000, 10001, … (hence N distinct ids, for any values whatsoever), and
`size()` afterwards equals N. -/
theorem c9_sequential_ids_and_size (now : Int) (ttl : Nat) (vs : List PyValue) :
    (Cache.addMany now ttl vs CacheItemFactory.BASE_ID []).1 =
        List.range' CacheItemFactory.BASE_ID vs.length
  ∧ (Cache.addMany now ttl vs CacheItemFactory.BASE_ID []).1.Nodup
  ∧ List.Pairwise (fun a b => a < b)
      (Cache.addMany now ttl vs CacheItemFactory.BASE_ID []).1
  ∧ (Cache.size (Cache.addMany now ttl vs CacheItemFactory.BASE_ID []).2.1).1 = vs.length
  ∧ CacheItemFactory.BASE_ID = 10000 := by
  obtain ⟨h1, h2, h3⟩ :=
    Cache.addMany_spec now ttl vs CacheItemFactory.BASE_ID [] (by simp)
  refine ⟨h1, ?_, ?_, ?_, rfl⟩
  · rw [h1]
    exact List.nodup_range' _ _
  · rw [h1]
    exact List.pairwise_lt_range' _ _
  · simp only [Cache.size]
    rw [h2]
    simp

/-- Claim C10: the read operations `get`, `size`, `containsId`
(`Cache.__contains__`) and `getByKey` all return the storage they were
given, unchanged — in the embedding every operation hands back the storage
it leaves behind, and for these four it is the input storage itself, so no
entry (expired ones included) is inserted, removed or replaced by a read. -/
theorem c10_reads_preserve_storage (now : Int) (st : Storage) (k : Nat) (pk : PyKey)
    (key : String) :
    (Cache.get st k).2 = st
  ∧ (Cache.size st).2 = st
  ∧ (Cache.containsId now st pk).2 = st
  ∧ (Cache.get_by_key now st key).2 = st := by
  refine ⟨rfl, rfl, ?_, rfl⟩
  cases pk with
  | intKey n =>
    rw [Cache.containsId]
    cases dictGet st n <;> rfl
  | strKey s => rfl

/-- Claim C1 fails on the code: after storing `{"a":1}` under a live entry,
`CacheService.get_by_key("a")` returns `None`, because its guard runs
`Cache.__contains__` with the string key against the int-keyed storage
dict, which can never succeed — even though the entry is live, its value
does contain the key, and the `Cache.get_by_key` the guard shields would
have found it. -/
theorem c1_service_get_by_key_always_misses :
    CacheService.get_by_key 0 stA "a" = none
  ∧ (Cache.get_by_key 0 stA "a").1 = some itemDictA
  ∧ itemDictA.is_expired 0 = false
  ∧ itemDictA.contains_key "a" = true
  ∧ CacheService.get_by_key 0 stA "b" = none :=
  ⟨rfl, rfl, rfl, rfl, rfl⟩

/-- Claim C2 fails on the code: the `expires_at` setter guard is inverted,
so assigning a time strictly EARLIER than the current expiration commits —
here the expiration of an entry created at 40 with expiration 100 drops to
30, strictly decreasing `expires_at` and pushing it below `created_at`,
the two invariants the claim asserts. -/
theorem c2_setter_commits_earlier_time :
    itemBase.created_at = 40
  ∧ itemBase.expires_at = 100
  ∧ itemBase.expires_at_set 30 = Except.ok { itemBase with expires_at := 30 }
  ∧ (30 : Int) < itemBase.expires_at
  ∧ (30 : Int) < itemBase.created_at :=
  ⟨rfl, rfl, rfl, by decide, by decide⟩

/-- Claim C3 fails on the code: on the branch the setter rejects (per its
inverted guard, a candidate strictly later than the current expiration),
the source calls `self._logger.warning`, but `CacheItem` never defines
`_logger`, so the assignment raises `AttributeError` instead of merely
logging a warning and returning. -/
theorem c3_setter_raises_attribute_error :
    itemBase.expires_at_set 200 = Except.error PyErr.attributeError
  ∧ itemBase.expires_at < 200 :=
  ⟨rfl, by decide⟩

/-- Claim C4 fails on the code: starting at the loop head with the stop
event clear, the thread enters the sleep; a `shutdown` that sets the stop
event while the sleep is in progress does NOT make the loop exit before
sweeping — after the sleep completes the iteration still runs
`invalidate_expired` (the expired entry is purged from storage) and the
loop has not exited. -/
theorem c4_stop_during_sleep_still_sweeps :
    expiredItem.is_expired 1000 = true
  ∧ (setStopEvent (cleanupStep 1000 s0)).stopEvent = true
  ∧ (setStopEvent (cleanupStep 1000 s0)).pc = CleanupPC.sleepCall
  ∧ (cleanupStep 1000 (cleanupStep 1000 (setStopEvent (cleanupStep 1000 s0)))).exited = false
  ∧ (cleanupStep 1000 (cleanupStep 1000 (setStopEvent (cleanupStep 1000 s0)))).storage = []
  ∧ dictGet s0.storage 10000 = some expiredItem :=
  ⟨rfl, rfl, rfl, rfl, rfl, rfl⟩

/-- Claim C4, amended: each iteration of `_periodic_cleanup` checks the
stop signal FIRST, at the loop head: if it is set the loop exits without
sweeping; otherwise the thread sleeps and then unconditionally calls
`invalidate_expired` and updates `last_operation_at`, even when a stop
request arrives during the sleep — such a request is honoured only at the
next iteration's check. -/
theorem c4_check_then_sleep_then_sweep (now : Int) (s : ServiceState)
    (hpc : s.pc = CleanupPC.check) (hex : s.exited = false) :
    (s.stopEvent = true → cleanupStep now s = { s with exited := true })
  ∧ (s.stopEvent = false → ∀ b : Bool,
      cleanupStep now (cleanupStep now (cleanupStep now (injectStop b (cleanupStep now s)))) =
        { s with pc := CleanupPC.check, stopEvent := b,
                 storage := Cache.invalidate_expired now s.storage,
                 lastOperationAt := now }) := by
  rcases s with ⟨pc, se, stg, lo, ex⟩
  dsimp only at hpc hex
  subst hpc
  subst hex
  constructor
  · intro hse
    subst hse
    rfl
  · intro hse b
    subst hse
    cases b <;> rfl

/-- Witness for the amended C4: one full iteration from the concrete state
`s0`, with the stop event raised during the sleep. -/
theorem c4_check_then_sleep_then_sweep_witness :
    cleanupStep 5 (cleanupStep 5 (cleanupStep 5 (injectStop true (cleanupStep 5 s0)))) =
      { s0 with pc := CleanupPC.check, stopEvent := true,
                storage := Cache.invalidate_expired 5 s0.storage,
                lastOperationAt := 5 } :=
  (c4_check_then_sleep_then_sweep 5 s0 rfl rfl).2 rfl true

/-- Claim C8: `contains_key` is a total function (the embedding of the
`try/except` body): it returns `false` when the stored value has no
`__contains__`, returns the membership result when the test succeeds, and
turns any exception raised by the test into `false` instead of
propagating it. -/
theorem c8_contains_key_never_raises (it : CacheItem) (key : String) :
    (it.value.hasContains = false → it.contains_key key = false)
  ∧ (∀ b : Bool, it.value.memberTest key = Except.ok b → it.contains_key key = b)
  ∧ (∀ e : PyErr, it.value.memberTest key = Except.error e → it.contains_key key = false) := by
  rcases it with ⟨i, ca, ea, t, v⟩
  cases v <;>
    simp [CacheItem.contains_key, CacheItem.containsMem, PyValue.hasContains,
      PyValue.memberTest]

/-- Witness for C8: an `int` value (no membership support) yields `false`, a
dict value yields its membership result, and a value whose membership test
raises yields `false`. -/
theorem c8_witness :
    itemIntV.contains_key "a" = false
  ∧ itemDictA.contains_key "a" = true
  ∧ itemBadV.contains_key "a" = false :=
  ⟨(c8_contains_key_never_raises itemIntV "a").1 rfl,
   (c8_contains_key_never_raises itemDictA "a").2.1 true rfl,
   (c8_contains_key_never_raises itemBadV "a").2.2 PyErr.typeError rfl⟩
